import Mathlib

/-!
Verification of the slot-booking core of the mechanic-booking backend.

The Python source is shallowly embedded as Lean definitions:
* Firestore documents become association lists (`dget` / `dset` model Python
  dict lookup and assignment, and Firestore document get / set by id);
* datetimes are modelled as natural numbers of minutes since an epoch
  (`dayKey` is `date().isoformat()`, `fmtHM` is `strftime("%H:%M")`);
* `datetime.strptime(s, "%H:%M")` is modelled by `parseHM`, which follows
  CPython's `_strptime` regex `(2[0-3]|[0-1]\d|\d):([0-5]\d|\d)` with a
  full-match requirement;
* Firestore transactions become pure state transformers on `DBState`:
  raising inside a transaction aborts it, so an error result carries no
  state change;
* exceptions become `Except` / `Option` results.
-/

namespace MechBooking

/-- Python dict lookup `m.get(k)`, also Firestore document lookup by id. -/
def dget {α : Type} : List (String × α) → String → Option α
  | [], _ => none
  | (k', v) :: rest, k => if k' = k then some v else dget rest k

/-- Python dict assignment `m[k] = v` (replace in place, else append),
also a Firestore document create/overwrite by id. -/
def dset {α : Type} : List (String × α) → String → α → List (String × α)
  | [], k, v => [(k, v)]
  | (k', v') :: rest, k, v =>
      if k' = k then (k, v) :: rest else (k', v') :: dset rest k v

theorem dget_dset_self {α : Type} (m : List (String × α)) (k : String) (v : α) :
    dget (dset m k v) k = some v := by
  induction m with
  | nil => simp [dget, dset]
  | cons hd tl ih =>
      obtain ⟨k', v'⟩ := hd
      by_cases h : k' = k <;> simp [dget, dset, h, ih]

theorem dget_dset_ne {α : Type} (m : List (String × α)) (k k' : String) (v : α)
    (h : k ≠ k') : dget (dset m k v) k' = dget m k' := by
  induction m with
  | nil => simp [dget, dset, h]
  | cons hd tl ih =>
      obtain ⟨k0, v0⟩ := hd
      have h' : k' ≠ k := fun hh => h hh.symm
      by_cases h0 : k0 = k
      · subst h0
        simp [dget, dset, h]
      · by_cases h1 : k0 = k' <;> simp [dget, dset, h0, h1, h', ih]

theorem dget_dset (m : List (String × α)) (k k' : String) (v : α) :
    dget (dset m k v) k' = if k = k' then some v else dget m k' := by
  by_cases h : k = k'
  · subst h; simp [dget_dset_self]
  · simp [h, dget_dset_ne m k k' v h]

/-- The decimal digit characters used by zero-padded formatting. -/
def digitChar : Nat → Char
  | 0 => '0' | 1 => '1' | 2 => '2' | 3 => '3' | 4 => '4'
  | 5 => '5' | 6 => '6' | 7 => '7' | 8 => '8' | 9 => '9'
  | _ => '?'

/-- Numeric value of a digit character (used when modelling `strptime`). -/
def digitVal (c : Char) : Nat := c.toNat - 48

/-- Two-digit zero-padded decimal rendering, for inputs below 100. -/
def pad2 (n : Nat) : String := String.mk [digitChar (n / 10), digitChar (n % 10)]

/-- Model of `dt.strftime("%H:%M")` for a time-of-day given in minutes:
hour and minute, both zero-padded to two digits. -/
def fmtHM (m : Nat) : String := pad2 ((m / 60) % 24) ++ ":" ++ pad2 (m % 60)

/-- Model of `datetime.strptime(s, "%H:%M")` on the character list of `s`.
CPython compiles `"%H:%M"` to the regex `(2[0-3]|[0-1]\d|\d):([0-5]\d|\d)`
and rejects the input unless the whole string is consumed, so the accepted
strings are exactly: a one- or two-digit hour whose value is at most 23,
a colon, and a one- or two-digit minute whose value is at most 59.
The result is the parsed time of day in minutes. -/
def parseHMList : List Char → Option Nat
  | [h, c, m] =>
      if c = ':' ∧ h.isDigit ∧ m.isDigit then
        some (digitVal h * 60 + digitVal m)
      else none
  | [a, b, c, d] =>
      if b = ':' ∧ a.isDigit ∧ c.isDigit ∧ d.isDigit ∧
          digitVal c * 10 + digitVal d ≤ 59 then
        some (digitVal a * 60 + (digitVal c * 10 + digitVal d))
      else if c = ':' ∧ a.isDigit ∧ b.isDigit ∧ d.isDigit ∧
          digitVal a * 10 + digitVal b ≤ 23 then
        some ((digitVal a * 10 + digitVal b) * 60 + digitVal d)
      else none
  | [a, b, c, d, e] =>
      if c = ':' ∧ a.isDigit ∧ b.isDigit ∧ d.isDigit ∧ e.isDigit ∧
          digitVal a * 10 + digitVal b ≤ 23 ∧ digitVal d * 10 + digitVal e ≤ 59 then
        some ((digitVal a * 10 + digitVal b) * 60 + (digitVal d * 10 + digitVal e))
      else none
  | _ => none

/-- Model of `datetime.strptime(s, "%H:%M")`, in minutes since midnight. -/
def parseHM (s : String) : Option Nat := parseHMList s.toList

/-- The `while current < end_dt` loop body of `build_slots`.  The loop
variable advances by `g` minutes per iteration; `fuel` bounds the number
of iterations (the caller passes `e - cur`, which suffices whenever
`1 ≤ g`).  The Python loop does not terminate when the granularity is 0;
that argument is never used by the repository's callers. -/
def slotLoop : Nat → Nat → Nat → Nat → List (String × String)
  | 0, _, _, _ => []
  | fuel + 1, cur, e, g =>
      if cur < e then (fmtHM cur, "free") :: slotLoop fuel (cur + g) e g else []

/-- Embedding of `backend/app/utils/slots.py::build_slots`.  Parses both
time strings with `strptime("%H:%M")`, rejects `end <= start`, then emits
one slot key per granularity step strictly before the end time, each
mapped to `"free"`. -/
def build_slots (start_time end_time : String) (granularity_min : Nat) :
    Except String (List (String × String)) :=
  match parseHM start_time, parseHM end_time with
  | some s, some e =>
      if e ≤ s then Except.error "end_time must be after start_time"
      else Except.ok (slotLoop (e - s) s e granularity_min)
  | _, _ => Except.error "start_time and end_time must be HH:MM 24-hour strings"

/-- Membership in the generated slot list: with a positive granularity and
enough fuel, the loop emits exactly the keys `cur`, `cur + g`, `cur + 2g`, …
that are strictly before `e`, each mapped to `"free"`. -/
theorem slotLoop_mem (fuel : Nat) : ∀ cur e g, 1 ≤ g → e - cur ≤ fuel →
    ∀ k v, ((k, v) ∈ slotLoop fuel cur e g ↔
      (v = "free" ∧ ∃ i, cur + i * g < e ∧ k = fmtHM (cur + i * g))) := by
  induction fuel with
  | zero =>
      intro cur e g hg hfuel k v
      have he : e ≤ cur := by omega
      simp only [slotLoop, List.not_mem_nil, false_iff]
      rintro ⟨-, i, hlt, -⟩
      omega
  | succ fuel ih =>
      intro cur e g hg hfuel k v
      by_cases hcur : cur < e
      · have hrec := ih (cur + g) e g hg (by omega) k v
        simp only [slotLoop, hcur, if_true, List.mem_cons, hrec, Prod.mk.injEq]
        constructor
        · rintro (⟨hk, hv⟩ | ⟨hv, i, hlt, hk⟩)
          · exact ⟨hv, 0, by simpa using hcur, by simpa using hk⟩
          · refine ⟨hv, i + 1, ?_, ?_⟩
            · have : (i + 1) * g = i * g + g := by ring
              rw [this]; generalize i * g = t at hlt ⊢; omega
            · have : (i + 1) * g = i * g + g := by ring
              rw [this]
              have harg : cur + (i * g + g) = cur + g + i * g := by
                generalize i * g = t; omega
              rw [harg]; exact hk
        · rintro ⟨hv, i, hlt, hk⟩
          cases i with
          | zero => exact Or.inl ⟨by simpa using hk, hv⟩
          | succ j =>
              refine Or.inr ⟨hv, j, ?_, ?_⟩
              · have hji : (j + 1) * g = j * g + g := by ring
                rw [hji] at hlt; generalize j * g = t at hlt ⊢; omega
              · have hji : (j + 1) * g = j * g + g := by ring
                rw [hji] at hk
                have harg : cur + (j * g + g) = cur + g + j * g := by
                  generalize j * g = t; omega
                rw [harg] at hk; exact hk
      · simp only [slotLoop, hcur, if_false, List.not_mem_nil, false_iff]
        rintro ⟨-, i, hlt, -⟩
        have : cur ≤ cur + i * g := Nat.le_add_right _ _
        omega

/-- C5: for every well-formed pair of times with start strictly before end and
every positive granularity, `build_slots` succeeds and returns exactly the
keys `start`, `start + g`, `start + 2g`, … strictly before `end`, each mapped
to `"free"`; in particular `build_slots "09:00" "12:00" 30` is exactly the six
half-hour keys 09:00–11:30 and `build_slots "09:00" "10:45" 30` is exactly the
four keys ending at 10:30. -/
theorem buildSlots_grid_correct :
    (∀ s e g ts te, 1 ≤ g → parseHM s = some ts → parseHM e = some te →
      ts < te →
      ∃ m, build_slots s e g = Except.ok m ∧
        ∀ k v, ((k, v) ∈ m ↔
          (v = "free" ∧ ∃ i, ts + i * g < te ∧ k = fmtHM (ts + i * g))))
    ∧ build_slots "09:00" "12:00" 30 =
        Except.ok [("09:00", "free"), ("09:30", "free"), ("10:00", "free"),
                   ("10:30", "free"), ("11:00", "free"), ("11:30", "free")]
    ∧ build_slots "09:00" "10:45" 30 =
        Except.ok [("09:00", "free"), ("09:30", "free"),
                   ("10:00", "free"), ("10:30", "free")] := by
  refine ⟨?_, by rfl, by rfl⟩
  intro s e g ts te hg hs he hlt
  have hbuild : build_slots s e g = Except.ok (slotLoop (te - ts) ts te g) := by
    unfold build_slots
    rw [hs, he]
    simp [Nat.not_le.mpr hlt]
  exact ⟨slotLoop (te - ts) ts te g, hbuild,
    slotLoop_mem (te - ts) ts te g hg (Nat.le_refl _)⟩

/-- C5 witness: the general grid theorem applied at the concrete input
`build_slots "09:00" "12:00" 30` (start 540, end 720 minutes). -/
theorem buildSlots_grid_correct_witness :
    ∃ m, build_slots "09:00" "12:00" 30 = Except.ok m ∧
      ∀ k v, ((k, v) ∈ m ↔
        (v = "free" ∧ ∃ i, 540 + i * 30 < 720 ∧ k = fmtHM (540 + i * 30))) :=
  buildSlots_grid_correct.1 "09:00" "12:00" 30 540 720 (by decide) (by decide)
    (by decide) (by decide)

/-- Modelled from the spec's words: a "well-formed zero-padded 24-hour HH:MM
string" is exactly five characters — a two-digit hour 00–23, a colon, and a
two-digit minute 00–59.  Stated over the character list. -/
def specZeroPaddedHHMMList : List Char → Bool
  | [h1, h2, c, m1, m2] =>
      c == ':' && h1.isDigit && h2.isDigit && m1.isDigit && m2.isDigit &&
        decide (digitVal h1 * 10 + digitVal h2 ≤ 23) &&
        decide (digitVal m1 * 10 + digitVal m2 ≤ 59)
  | _ => false

/-- Modelled from the spec's words: see `specZeroPaddedHHMMList`. -/
def specZeroPaddedHHMM (s : String) : Bool := specZeroPaddedHHMMList s.toList

/-- C6 counterexample: the claim says `build_slots` fails whenever a time
string is not a well-formed zero-padded HH:MM string, but the code's
`strptime("%H:%M")` parse is lenient: `"9:00"` is not zero-padded, the end
time `"10:00"` is strictly later, and `build_slots "9:00" "10:00" 15`
nevertheless succeeds. -/
theorem buildSlots_zero_padded_counterexample :
    specZeroPaddedHHMM "9:00" = false ∧
    build_slots "9:00" "10:00" 15 =
      Except.ok [("09:00", "free"), ("09:15", "free"),
                 ("09:30", "free"), ("09:45", "free")] :=
  ⟨by decide, by rfl⟩

/-- Every zero-padded HH:MM string (in the spec's sense) is accepted by the
code's lenient parse. -/
theorem parseHMList_of_specZeroPadded (l : List Char)
    (h : specZeroPaddedHHMMList l = true) : (parseHMList l).isSome = true := by
  rcases l with _ | ⟨a, _ | ⟨b, _ | ⟨c, _ | ⟨d, _ | ⟨e, _ | ⟨f, rest⟩⟩⟩⟩⟩⟩ <;>
    simp [specZeroPaddedHHMMList] at h
  obtain ⟨⟨⟨⟨⟨⟨hc, ha⟩, hb⟩, hd⟩, he⟩, h23⟩, h59⟩ := h
  simp [parseHMList, hc, ha, hb, hd, he, h23, h59]

/-- C6 (amended): `build_slots` fails with a validation error if and only if
either time string is rejected by the lenient `strptime("%H:%M")` parse
(one- or two-digit hour at most 23, a colon, one- or two-digit minute at most
59), or the end time is not strictly after the start time.  Every zero-padded
HH:MM string is accepted by that parse, but some non-zero-padded strings such
as `"9:00"` are accepted as well, while `"9:60"` (minute out of range) is
rejected.  In particular `build_slots "12:00" "09:00" g`,
`build_slots "09:00" "9:60" g` and `build_slots x x g` fail for every
granularity `g` and every string `x`. -/
theorem buildSlots_validation_amended :
    (∀ s e g, (∃ m, build_slots s e g = Except.ok m) ↔
      (∃ ts te, parseHM s = some ts ∧ parseHM e = some te ∧ ts < te))
    ∧ (∀ g, (build_slots "12:00" "09:00" g).isOk = false)
    ∧ (∀ g, (build_slots "09:00" "9:60" g).isOk = false)
    ∧ (∀ x g, (build_slots x x g).isOk = false)
    ∧ (∀ s, specZeroPaddedHHMM s = true → (parseHM s).isSome = true) := by
  refine ⟨?_, fun g => rfl, fun g => rfl, ?_, ?_⟩
  · intro s e g
    constructor
    · rintro ⟨m, hm⟩
      cases hs : parseHM s with
      | none => simp [build_slots, hs] at hm
      | some ts =>
          cases he : parseHM e with
          | none => simp [build_slots, hs, he] at hm
          | some te =>
              refine ⟨ts, te, rfl, rfl, ?_⟩
              by_contra hle
              simp [build_slots, hs, he, Nat.le_of_not_lt hle] at hm
    · rintro ⟨ts, te, hs, he, hlt⟩
      refine ⟨slotLoop (te - ts) ts te g, ?_⟩
      unfold build_slots
      rw [hs, he]
      simp [Nat.not_le.mpr hlt]
  · intro x g
    cases hx : parseHM x with
    | none => simp [build_slots, hx, Except.isOk, Except.toBool]
    | some t => simp [build_slots, hx, Except.isOk, Except.toBool]
  · intro s hs
    exact parseHMList_of_specZeroPadded s.toList hs

/-- C6 amended-claim witness: the validation characterisation applied at the
concrete failing input `build_slots "12:00" "09:00" 15`. -/
theorem buildSlots_validation_amended_witness :
    (build_slots "12:00" "09:00" 15).isOk = false ∧
    (build_slots "09:00" "9:60" 15).isOk = false ∧
    (parseHM "09:30").isSome = true :=
  ⟨buildSlots_validation_amended.2.1 15,
   buildSlots_validation_amended.2.2.1 15,
   buildSlots_validation_amended.2.2.2.2 "09:30" (by decide)⟩

/-- An availability day document (`availability` collection).  The seeder's
create branch does not write the `generated_dynamically` flag; an absent flag
is modelled as `false` (only the booking engine's dynamic create sets it). -/
structure AvailDoc where
  day : String
  slots : List (String × String)
  mechanics : List (String × Bool)
  generated_dynamically : Bool
  created_at : Nat
  updated_at : Nat
deriving DecidableEq

/-- The slot-merge loop of `_update_availability_in_transaction`: iterate the
generated `slot_map` in order and write a key only when its current value is
absent, `"free"`, or `"blocked"`. -/
def mergeSlots (merged_slots slot_map : List (String × String)) :
    List (String × String) :=
  slot_map.foldl
    (fun acc kv =>
      if dget acc kv.1 = none ∨ dget acc kv.1 = some "free" ∨
          dget acc kv.1 = some "blocked"
      then dset acc kv.1 kv.2 else acc)
    merged_slots

/-- Embedding of `backend/app/routers/availability.py::
_update_availability_in_transaction`.  The Firestore transaction becomes a
pure transformation of the availability collection; `SERVER_TIMESTAMP`
becomes the `now` parameter.  Returns the new collection and the
`(created, updated)` flag pair. -/
def _update_availability_in_transaction (store : List (String × AvailDoc))
    (doc_ref : String) (slot_map : List (String × String)) (mech_id : String)
    (day_date : String) (now : Nat) :
    List (String × AvailDoc) × Bool × Bool :=
  match dget store doc_ref with
  | none =>
      (dset store doc_ref
        { day := day_date, slots := slot_map, mechanics := [(mech_id, true)],
          generated_dynamically := false, created_at := now, updated_at := now },
       true, false)
  | some data =>
      let merged_slots := mergeSlots data.slots slot_map
      let mechanics_map := dset data.mechanics mech_id true
      (dset store doc_ref
        { data with slots := merged_slots, mechanics := mechanics_map,
                    updated_at := now },
       false, true)

/-- A key whose current value is not absent/free/blocked is never touched by
the merge loop. -/
theorem mergeSlots_not_overwritten (slot_map : List (String × String)) :
    ∀ acc k, ¬(dget acc k = none ∨ dget acc k = some "free" ∨
        dget acc k = some "blocked") →
      dget (mergeSlots acc slot_map) k = dget acc k := by
  induction slot_map with
  | nil => intro acc k _; rfl
  | cons kv rest ih =>
      intro acc k hk
      show dget (mergeSlots (if _ then dset acc kv.1 kv.2 else acc) rest) k = _
      by_cases hcond : dget acc kv.1 = none ∨ dget acc kv.1 = some "free" ∨
          dget acc kv.1 = some "blocked"
      · have hne : kv.1 ≠ k := by
          intro hkk
          rw [hkk] at hcond
          exact hk hcond
        have hpt : dget (dset acc kv.1 kv.2) k = dget acc k :=
          dget_dset_ne acc kv.1 k kv.2 hne
        rw [if_pos hcond, ih (dset acc kv.1 kv.2) k (by rw [hpt]; exact hk), hpt]
      · rw [if_neg hcond, ih acc k hk]

/-- C2: in the seeder's per-(mechanic, day) merge on an existing day record, a
generated slot-key is written only if the existing value is absent, "free" or
"blocked" — any other current value, in particular "booked", is left
unchanged — the mechanics map gains the seeding mechanic regardless, and the
transaction reports (created, updated) = (false, true). -/
theorem seeder_merge_non_destructive (store : List (String × AvailDoc))
    (doc_ref : String) (slot_map : List (String × String)) (mech_id : String)
    (day_date : String) (now : Nat) (data : AvailDoc)
    (hdoc : dget store doc_ref = some data) :
    ∃ data',
      dget (_update_availability_in_transaction store doc_ref slot_map mech_id
        day_date now).1 doc_ref = some data' ∧
      (∀ k, ¬(dget data.slots k = none ∨ dget data.slots k = some "free" ∨
          dget data.slots k = some "blocked") →
        dget data'.slots k = dget data.slots k) ∧
      (∀ k, dget data.slots k = some "booked" →
        dget data'.slots k = some "booked") ∧
      dget data'.mechanics mech_id = some true ∧
      (_update_availability_in_transaction store doc_ref slot_map mech_id
        day_date now).2 = (false, true) := by
  refine ⟨{ data with
              slots := mergeSlots data.slots slot_map,
              mechanics := dset data.mechanics mech_id true,
              updated_at := now },
    ?_, ?_, ?_, ?_, ?_⟩
  · simp only [_update_availability_in_transaction, hdoc]
    exact dget_dset_self _ _ _
  · intro k hk
    exact mergeSlots_not_overwritten slot_map data.slots k hk
  · intro k hk
    have : dget (mergeSlots data.slots slot_map) k = dget data.slots k := by
      apply mergeSlots_not_overwritten
      rw [hk]
      rintro (h | h | h) <;> simp at h
    simpa [this] using hk
  · exact dget_dset_self _ _ _
  · simp only [_update_availability_in_transaction, hdoc]

/-- The concrete day record used by the C2 witness: its "09:30" slot is
already "booked". -/
def c2Doc : AvailDoc :=
  { day := "2025-06-16",
    slots := [("09:00", "free"), ("09:30", "booked")],
    mechanics := [("mech-1", true)],
    generated_dynamically := false,
    created_at := 0,
    updated_at := 0 }

/-- The one-document availability store used by the C2 witness. -/
def c2Store : List (String × AvailDoc) := [("2025-06-16", c2Doc)]

/-- C2 witness: re-seeding a concrete day whose "09:30" slot is "booked" — the
merge theorem applied to a one-document store and a generated grid that would
set "09:30" back to "free". -/
theorem seeder_merge_non_destructive_witness :
    ∃ data',
      dget (_update_availability_in_transaction c2Store "2025-06-16"
        [("09:00", "free"), ("09:30", "free")] "mech-1" "2025-06-16" 5).1
        "2025-06-16" = some data' ∧
      (∀ k, ¬(dget c2Doc.slots k = none ∨ dget c2Doc.slots k = some "free" ∨
          dget c2Doc.slots k = some "blocked") →
        dget data'.slots k = dget c2Doc.slots k) ∧
      (∀ k, dget c2Doc.slots k = some "booked" →
        dget data'.slots k = some "booked") ∧
      dget data'.mechanics "mech-1" = some true ∧
      (_update_availability_in_transaction c2Store "2025-06-16"
        [("09:00", "free"), ("09:30", "free")] "mech-1" "2025-06-16" 5).2 =
        (false, true) :=
  seeder_merge_non_destructive c2Store "2025-06-16"
    [("09:00", "free"), ("09:30", "free")] "mech-1" "2025-06-16" 5 c2Doc
    (by rfl)

/-- A weekday entry of a mechanic's weekly schedule (`models.DaySchedule`);
`end` is a Lean keyword, so that field is called `endT` here. -/
structure DaySchedule where
  start : Option String
  endT : Option String
deriving DecidableEq

/-- A mechanic's weekly schedule (`models.MechanicSchedule`). -/
structure MechanicSchedule where
  monday : Option DaySchedule
  tuesday : Option DaySchedule
  wednesday : Option DaySchedule
  thursday : Option DaySchedule
  friday : Option DaySchedule
  saturday : Option DaySchedule
  sunday : Option DaySchedule
deriving DecidableEq

/-- The parts of a mechanic record the seeder reads: its id and weekly
schedule.  The seeder's input list stands for the result of the
`active == True` mechanics query; contact fields are not consulted. -/
structure Mechanic where
  id : String
  schedule : MechanicSchedule
deriving DecidableEq

/-- The seeder's `getattr(mech.schedule, weekday)` where `weekday` is taken
from the Monday-first weekday-name list at index `idx`. -/
def scheduleAt (s : MechanicSchedule) : Nat → Option DaySchedule
  | 0 => s.monday
  | 1 => s.tuesday
  | 2 => s.wednesday
  | 3 => s.thursday
  | 4 => s.friday
  | 5 => s.saturday
  | 6 => s.sunday
  | _ => none

/-- Python truthiness of an optional string: `None` and `""` are falsy. -/
def strTruthy : Option String → Bool
  | none => false
  | some s => !(s == "")

/-- Stand-in for `date.isoformat()` on a day modelled as a day number:
distinct days give distinct document ids. -/
def dayIso (n : Nat) : String := toString n

/-- The result payload of the seed endpoint (`AvailabilitySeedResult`). -/
structure AvailabilitySeedResult where
  week_start : Nat
  created : Nat
  updated : Nat
  skipped : Nat
  dry_run : Bool
deriving DecidableEq

/-- The mutable loop state of `seed_availability`: the three counters and
the availability collection being written. -/
structure SeedAcc where
  created : Nat
  updated : Nat
  skipped : Nat
  store : List (String × AvailDoc)
deriving DecidableEq

/-- The `(mechanic, weekday-index)` pairs visited by the seeder's two nested
loops, in iteration order: all seven days of each mechanic in turn. -/
def seedPairs (mechanics : List Mechanic) : List (Mechanic × Nat) :=
  mechanics.flatMap (fun m => (List.range 7).map (fun i => (m, i)))

/-- One iteration of the seeder's nested loop: skip incomplete schedule
entries and dry runs, otherwise build the slot grid (a `ValueError` from
`build_slots` propagates and aborts the whole request) and run the
per-(mechanic, day) transaction, counting creates and updates. -/
def seedStep (week_start : Nat) (dry_run : Bool) (now : Nat) (acc : SeedAcc)
    (p : Mechanic × Nat) : Except String SeedAcc :=
  match scheduleAt p.1.schedule p.2 with
  | none => Except.ok { acc with skipped := acc.skipped + 1 }
  | some day_sched =>
      if strTruthy day_sched.start = false ∨ strTruthy day_sched.endT = false
      then Except.ok { acc with skipped := acc.skipped + 1 }
      else if dry_run then Except.ok { acc with skipped := acc.skipped + 1 }
      else
        match build_slots (day_sched.start.getD "") (day_sched.endT.getD "") 15 with
        | Except.error e => Except.error e
        | Except.ok slot_map =>
            let r := _update_availability_in_transaction acc.store
              (dayIso (week_start + p.2)) slot_map p.1.id
              (dayIso (week_start + p.2)) now
            Except.ok { acc with
                        created := acc.created + (if r.2.1 then 1 else 0),
                        updated := acc.updated + (if r.2.2 then 1 else 0),
                        store := r.1 }

/-- Embedding of `backend/app/routers/availability.py::seed_availability`
with the week start already resolved to a day number and the active-mechanic
query and Firestore client passed in as values.  `build_slots` is called with
its default granularity of 15 minutes. -/
def seed_availability (mechanics : List Mechanic) (week_start : Nat)
    (dry_run : Bool) (store : List (String × AvailDoc)) (now : Nat) :
    Except String (AvailabilitySeedResult × List (String × AvailDoc)) :=
  match (seedPairs mechanics).foldlM (seedStep week_start dry_run now)
      ⟨0, 0, 0, store⟩ with
  | Except.error e => Except.error e
  | Except.ok acc =>
      Except.ok
        ({ week_start := week_start, created := acc.created,
           updated := acc.updated, skipped := acc.skipped,
           dry_run := dry_run }, acc.store)

/-- A `(mechanic, weekday)` pair the seeder skips: schedule entry missing or
incomplete, or a dry run. -/
def pairSkipped (dry_run : Bool) (p : Mechanic × Nat) : Bool :=
  match scheduleAt p.1.schedule p.2 with
  | none => true
  | some ds => !strTruthy ds.start || !strTruthy ds.endT || dry_run

/-- A `(mechanic, weekday)` pair whose complete schedule entry (if any) has
well-formed times with start strictly before end, so that `build_slots`
succeeds on it. -/
def pairWellFormed (p : Mechanic × Nat) : Bool :=
  match scheduleAt p.1.schedule p.2 with
  | none => true
  | some ds =>
      if strTruthy ds.start && strTruthy ds.endT then
        (build_slots (ds.start.getD "") (ds.endT.getD "") 15).isOk
      else true

theorem dget_dset_isSome {α : Type} (m : List (String × α)) (k k' : String)
    (v : α) (h : (dget m k').isSome = true) :
    (dget (dset m k v) k').isSome = true := by
  rw [dget_dset]
  by_cases hk : k = k' <;> simp [hk, h]

/-- Unpacking a non-skipped pair: its schedule entry exists and both times
are truthy strings. -/
theorem pair_not_skipped_elim (p : Mechanic × Nat)
    (h : pairSkipped false p = false) :
    ∃ ds, scheduleAt p.1.schedule p.2 = some ds ∧
      strTruthy ds.start = true ∧ strTruthy ds.endT = true := by
  cases hsch : scheduleAt p.1.schedule p.2 with
  | none => simp [pairSkipped, hsch] at h
  | some ds =>
      simp only [pairSkipped, hsch, Bool.or_false, Bool.or_eq_false_iff,
        Bool.not_eq_false'] at h
      exact ⟨ds, rfl, h.1, h.2⟩

/-- A skipped pair only increments the `skipped` counter. -/
theorem seedStep_skipped (ws : Nat) (dry : Bool) (now : Nat) (acc : SeedAcc)
    (p : Mechanic × Nat) (h : pairSkipped dry p = true) :
    seedStep ws dry now acc p =
      Except.ok ⟨acc.created, acc.updated, acc.skipped + 1, acc.store⟩ := by
  cases hsch : scheduleAt p.1.schedule p.2 with
  | none => simp [seedStep, hsch]
  | some ds =>
      simp only [pairSkipped, hsch] at h
      by_cases hcond : strTruthy ds.start = false ∨ strTruthy ds.endT = false
      · simp [seedStep, hsch, hcond]
      · have hdry : dry = true := by
          cases h1 : strTruthy ds.start <;> cases h2 : strTruthy ds.endT <;>
            simp_all
        simp [seedStep, hsch, hcond, hdry]

/-- A processed pair whose day document does not yet exist takes the create
path: `created` increments and the new document is written. -/
theorem seedStep_create (ws now : Nat) (acc : SeedAcc) (p : Mechanic × Nat)
    (h1 : pairSkipped false p = false) (h2 : pairWellFormed p = true)
    (h3 : dget acc.store (dayIso (ws + p.2)) = none) :
    ∃ doc, seedStep ws false now acc p =
      Except.ok ⟨acc.created + 1, acc.updated, acc.skipped,
        dset acc.store (dayIso (ws + p.2)) doc⟩ := by
  obtain ⟨ds, hsch, hs, he⟩ := pair_not_skipped_elim p h1
  simp only [pairWellFormed, hsch, hs, he, Bool.and_self, if_true] at h2
  cases hb : build_slots (ds.start.getD "") (ds.endT.getD "") 15 with
  | error e => rw [hb] at h2; simp [Except.isOk, Except.toBool] at h2
  | ok slot_map =>
      refine ⟨{ day := dayIso (ws + p.2), slots := slot_map,
                mechanics := [(p.1.id, true)],
                generated_dynamically := false,
                created_at := now, updated_at := now }, ?_⟩
      simp [seedStep, hsch, hs, he, hb,
        _update_availability_in_transaction, h3]

/-- A processed pair whose day document already exists takes the update
path: `updated` increments and the document is rewritten in place. -/
theorem seedStep_update (ws now : Nat) (acc : SeedAcc) (p : Mechanic × Nat)
    (data : AvailDoc)
    (h1 : pairSkipped false p = false) (h2 : pairWellFormed p = true)
    (h3 : dget acc.store (dayIso (ws + p.2)) = some data) :
    ∃ doc, seedStep ws false now acc p =
      Except.ok ⟨acc.created, acc.updated + 1, acc.skipped,
        dset acc.store (dayIso (ws + p.2)) doc⟩ := by
  obtain ⟨ds, hsch, hs, he⟩ := pair_not_skipped_elim p h1
  simp only [pairWellFormed, hsch, hs, he, Bool.and_self, if_true] at h2
  cases hb : build_slots (ds.start.getD "") (ds.endT.getD "") 15 with
  | error e => rw [hb] at h2; simp [Except.isOk, Except.toBool] at h2
  | ok slot_map =>
      refine ⟨{ data with
                  slots := mergeSlots data.slots slot_map,
                  mechanics := dset data.mechanics p.1.id true,
                  updated_at := now }, ?_⟩
      simp [seedStep, hsch, hs, he, hb,
        _update_availability_in_transaction, h3]

/-- A whole run over well-formed pairs succeeds; the counters grow
monotonically, existing documents survive, and every processed pair's day
document exists afterwards. -/
theorem seedRun_ok (ws now : Nat) :
    ∀ (ps : List (Mechanic × Nat)) (acc : SeedAcc),
      (∀ p ∈ ps, pairWellFormed p = true) →
      ∃ acc', ps.foldlM (seedStep ws false now) acc = Except.ok acc' ∧
        acc.created ≤ acc'.created ∧ acc.updated ≤ acc'.updated ∧
        (∀ k, (dget acc.store k).isSome = true →
          (dget acc'.store k).isSome = true) ∧
        (∀ p ∈ ps, pairSkipped false p = false →
          (dget acc'.store (dayIso (ws + p.2))).isSome = true) := by
  intro ps
  induction ps with
  | nil =>
      intro acc _
      exact ⟨acc, rfl, Nat.le_refl _, Nat.le_refl _, fun k h => h, by simp⟩
  | cons p0 rest ih =>
      intro acc hwf
      have hwf0 : pairWellFormed p0 = true := hwf p0 (by simp)
      have hwfr : ∀ p ∈ rest, pairWellFormed p = true :=
        fun p hp => hwf p (by simp [hp])
      by_cases hsk : pairSkipped false p0 = true
      · have hstep := seedStep_skipped ws false now acc p0 hsk
        obtain ⟨acc', hfold, hc, hu, hmono, hdocs⟩ :=
          ih ⟨acc.created, acc.updated, acc.skipped + 1, acc.store⟩ hwfr
        refine ⟨acc', ?_, hc, hu, hmono, ?_⟩
        · simpa [List.foldlM, hstep] using hfold
        · intro p hp hpns
          rcases List.mem_cons.mp hp with hp0 | hpr
          · subst hp0; rw [hsk] at hpns; exact absurd hpns (by simp)
          · exact hdocs p hpr hpns
      · have hns : pairSkipped false p0 = false := by
          cases hh : pairSkipped false p0
          · rfl
          · exact absurd hh hsk
        by_cases hdoc : (dget acc.store (dayIso (ws + p0.2))).isSome = true
        · obtain ⟨data, hdata⟩ := Option.isSome_iff_exists.mp hdoc
          obtain ⟨doc, hstep⟩ := seedStep_update ws now acc p0 data hns hwf0 hdata
          obtain ⟨acc', hfold, hc, hu, hmono, hdocs⟩ :=
            ih ⟨acc.created, acc.updated + 1, acc.skipped,
              dset acc.store (dayIso (ws + p0.2)) doc⟩ hwfr
          have hc' : acc.created ≤ acc'.created := by simpa using hc
          have hu' : acc.updated + 1 ≤ acc'.updated := by simpa using hu
          refine ⟨acc', ?_, by omega, by omega, ?_, ?_⟩
          · simpa [List.foldlM, hstep] using hfold
          · intro k hk
            exact hmono k (dget_dset_isSome _ _ _ _ hk)
          · intro p hp hpns
            rcases List.mem_cons.mp hp with hp0 | hpr
            · subst hp0
              exact hmono _ (by simp [dget_dset_self])
            · exact hdocs p hpr hpns
        · have hnone : dget acc.store (dayIso (ws + p0.2)) = none :=
            Option.not_isSome_iff_eq_none.mp hdoc
          obtain ⟨doc, hstep⟩ := seedStep_create ws now acc p0 hns hwf0 hnone
          obtain ⟨acc', hfold, hc, hu, hmono, hdocs⟩ :=
            ih ⟨acc.created + 1, acc.updated, acc.skipped,
              dset acc.store (dayIso (ws + p0.2)) doc⟩ hwfr
          have hc' : acc.created + 1 ≤ acc'.created := by simpa using hc
          have hu' : acc.updated ≤ acc'.updated := by simpa using hu
          refine ⟨acc', ?_, by omega, by omega, ?_, ?_⟩
          · simpa [List.foldlM, hstep] using hfold
          · intro k hk
            exact hmono k (dget_dset_isSome _ _ _ _ hk)
          · intro p hp hpns
            rcases List.mem_cons.mp hp with hp0 | hpr
            · subst hp0
              exact hmono _ (by simp [dget_dset_self])
            · exact hdocs p hpr hpns

/-- If the starting store has no documents for any visited day and at least
one pair is processed, a run increments `created` at least once (the first
processed pair finds its day document absent). -/
theorem seedRun_created_pos (ws now : Nat) :
    ∀ (ps : List (Mechanic × Nat)) (acc : SeedAcc),
      (∀ p ∈ ps, pairWellFormed p = true) →
      (∀ p ∈ ps, dget acc.store (dayIso (ws + p.2)) = none) →
      (∃ p ∈ ps, pairSkipped false p = false) →
      ∀ acc', ps.foldlM (seedStep ws false now) acc = Except.ok acc' →
        acc.created + 1 ≤ acc'.created := by
  intro ps
  induction ps with
  | nil =>
      rintro acc _ _ ⟨p, hp, -⟩
      exact absurd hp (List.not_mem_nil p)
  | cons p0 rest ih =>
      intro acc hwf habs hex acc' hfold
      have hwfr : ∀ p ∈ rest, pairWellFormed p = true :=
        fun p hp => hwf p (by simp [hp])
      by_cases hsk : pairSkipped false p0 = true
      · have hstep := seedStep_skipped ws false now acc p0 hsk
        have hfold' : rest.foldlM (seedStep ws false now)
            ⟨acc.created, acc.updated, acc.skipped + 1, acc.store⟩ =
            Except.ok acc' := by
          simpa [List.foldlM, hstep] using hfold
        have hexr : ∃ p ∈ rest, pairSkipped false p = false := by
          rcases hex with ⟨p, hp, hpns⟩
          rcases List.mem_cons.mp hp with hp0 | hpr
          · subst hp0; rw [hsk] at hpns; exact absurd hpns (by simp)
          · exact ⟨p, hpr, hpns⟩
        have := ih ⟨acc.created, acc.updated, acc.skipped + 1, acc.store⟩
          hwfr (fun p hp => habs p (by simp [hp])) hexr acc' hfold'
        simpa using this
      · have hns : pairSkipped false p0 = false := by
          cases hh : pairSkipped false p0
          · rfl
          · exact absurd hh hsk
        obtain ⟨doc, hstep⟩ := seedStep_create ws now acc p0 hns
          (hwf p0 (by simp)) (habs p0 (by simp))
        have hfold' : rest.foldlM (seedStep ws false now)
            ⟨acc.created + 1, acc.updated, acc.skipped,
              dset acc.store (dayIso (ws + p0.2)) doc⟩ =
            Except.ok acc' := by
          simpa [List.foldlM, hstep] using hfold
        obtain ⟨acc2, hfold2, hc, -, -, -⟩ := seedRun_ok ws now rest
          ⟨acc.created + 1, acc.updated, acc.skipped,
            dset acc.store (dayIso (ws + p0.2)) doc⟩ hwfr
        rw [hfold'] at hfold2
        cases hfold2
        simpa using hc

/-- A run in which every processed pair's day document already exists takes
the update path everywhere: `created` is unchanged and `updated` grows by
exactly the number of processed pairs. -/
theorem seedRun_second (ws now : Nat) :
    ∀ (ps : List (Mechanic × Nat)) (acc : SeedAcc),
      (∀ p ∈ ps, pairWellFormed p = true) →
      (∀ p ∈ ps, pairSkipped false p = false →
        (dget acc.store (dayIso (ws + p.2))).isSome = true) →
      ∃ acc', ps.foldlM (seedStep ws false now) acc = Except.ok acc' ∧
        acc'.created = acc.created ∧
        acc'.updated = acc.updated +
          (ps.filter (fun p => !pairSkipped false p)).length := by
  intro ps
  induction ps with
  | nil =>
      intro acc _ _
      exact ⟨acc, rfl, rfl, by simp⟩
  | cons p0 rest ih =>
      intro acc hwf hdocs
      have hwfr : ∀ p ∈ rest, pairWellFormed p = true :=
        fun p hp => hwf p (by simp [hp])
      by_cases hsk : pairSkipped false p0 = true
      · have hstep := seedStep_skipped ws false now acc p0 hsk
        obtain ⟨acc', hfold, hc, hu⟩ :=
          ih ⟨acc.created, acc.updated, acc.skipped + 1, acc.store⟩ hwfr
            (fun p hp hpns => hdocs p (by simp [hp]) hpns)
        refine ⟨acc', ?_, by simpa using hc, ?_⟩
        · simpa [List.foldlM, hstep] using hfold
        · simpa [List.filter, hsk] using hu
      · have hns : pairSkipped false p0 = false := by
          cases hh : pairSkipped false p0
          · rfl
          · exact absurd hh hsk
        obtain ⟨data, hdata⟩ := Option.isSome_iff_exists.mp
          (hdocs p0 (by simp) hns)
        obtain ⟨doc, hstep⟩ := seedStep_update ws now acc p0 data hns
          (hwf p0 (by simp)) hdata
        obtain ⟨acc', hfold, hc, hu⟩ :=
          ih ⟨acc.created, acc.updated + 1, acc.skipped,
            dset acc.store (dayIso (ws + p0.2)) doc⟩ hwfr
            (fun p hp hpns =>
              dget_dset_isSome _ _ _ _ (hdocs p (by simp [hp]) hpns))
        refine ⟨acc', ?_, by simpa using hc, ?_⟩
        · simpa [List.foldlM, hstep] using hfold
        · have hu' : acc'.updated = acc.updated + 1 +
              (rest.filter (fun p => !pairSkipped false p)).length := by
            simpa using hu
          simp only [List.filter, hns, Bool.not_false, List.length_cons]
          omega

/-- The mechanic used by the C10 counterexample: its Monday entry is complete
(start and end both present) but the end time precedes the start time. -/
def c10BadMechanic : Mechanic :=
  { id := "mech-1",
    schedule := { monday := some { start := some "10:00", endT := some "09:00" },
                  tuesday := none, wednesday := none, thursday := none,
                  friday := none, saturday := none, sunday := none } }

/-- C10 counterexample: the claim quantifies over every mechanic set whose
schedules contain at least one complete weekday entry, but for this concrete
mechanic — Monday entry complete, with end "09:00" before start "10:00" —
the first seed run raises `build_slots`' ValueError instead of returning any
counts, so "running the seed operation twice yields created > 0 then
created == 0, updated > 0" fails at this input. -/
theorem seed_idempotence_counterexample :
    c10BadMechanic.schedule.monday =
      some { start := some "10:00", endT := some "09:00" } ∧
    seed_availability [c10BadMechanic] 0 false [] 0 =
      Except.error "end_time must be after start_time" :=
  ⟨rfl, rfl⟩

/-- C10 (amended): for every target week and fixed set of active mechanics
whose schedules contain at least one complete (start and end present) weekday
entry, *whose complete entries are well-formed with start strictly before
end*, and starting from a store with no availability documents for that week,
running the seed operation twice with dry_run = false yields created ≥ 1 on
the first run and created = 0, updated ≥ 1 on the second; and a
(mechanic, day) transaction whose day document already exists always reports
(created, updated) = (false, true) — the update path, never the create
path. -/
theorem seed_idempotent_amended :
    (∀ (mechanics : List Mechanic) (ws now1 now2 : Nat)
        (store0 : List (String × AvailDoc)),
      (∀ p ∈ seedPairs mechanics, pairWellFormed p = true) →
      (∀ p ∈ seedPairs mechanics, dget store0 (dayIso (ws + p.2)) = none) →
      (∃ p ∈ seedPairs mechanics, pairSkipped false p = false) →
      ∃ r1 store1 r2 store2,
        seed_availability mechanics ws false store0 now1 =
          Except.ok (r1, store1) ∧
        seed_availability mechanics ws false store1 now2 =
          Except.ok (r2, store2) ∧
        1 ≤ r1.created ∧ r2.created = 0 ∧ 1 ≤ r2.updated)
    ∧ (∀ store doc_ref slot_map mech_id day_date now data,
        dget store doc_ref = some data →
        (_update_availability_in_transaction store doc_ref slot_map mech_id
          day_date now).2 = (false, true)) := by
  constructor
  · intro mechanics ws now1 now2 store0 hwf hfresh hex
    obtain ⟨acc1, hfold1, -, -, -, hdocs1⟩ :=
      seedRun_ok ws now1 (seedPairs mechanics) ⟨0, 0, 0, store0⟩ hwf
    have hcr1 : 1 ≤ acc1.created := by
      have := seedRun_created_pos ws now1 (seedPairs mechanics)
        ⟨0, 0, 0, store0⟩ hwf (fun p hp => hfresh p hp) hex acc1 hfold1
      simpa using this
    obtain ⟨acc2, hfold2, hc2, hu2⟩ :=
      seedRun_second ws now2 (seedPairs mechanics) ⟨0, 0, 0, acc1.store⟩ hwf
        (fun p hp hpns => hdocs1 p hp hpns)
    have hlen : 1 ≤ ((seedPairs mechanics).filter
        (fun p => !pairSkipped false p)).length := by
      rcases hex with ⟨p, hp, hpns⟩
      have hmem : p ∈ (seedPairs mechanics).filter
          (fun p => !pairSkipped false p) :=
        List.mem_filter.mpr ⟨hp, by simp [hpns]⟩
      exact List.length_pos.mpr (fun hnil => by simp [hnil] at hmem)
    refine ⟨⟨ws, acc1.created, acc1.updated, acc1.skipped, false⟩, acc1.store,
      ⟨ws, acc2.created, acc2.updated, acc2.skipped, false⟩, acc2.store,
      ?_, ?_, hcr1, by simpa using hc2, ?_⟩
    · simp [seed_availability, hfold1]
    · simp [seed_availability, hfold2]
    · show 1 ≤ acc2.updated
      have hupd : acc2.updated = 0 + ((seedPairs mechanics).filter
          (fun p => !pairSkipped false p)).length := by simpa using hu2
      omega
  · intro store doc_ref slot_map mech_id day_date now data hdata
    simp [_update_availability_in_transaction, hdata]

/-- The mechanic used by the C10 witness: a single well-formed complete
Monday entry 09:00–09:30. -/
def c10GoodMechanic : Mechanic :=
  { id := "mech-1",
    schedule := { monday := some { start := some "09:00", endT := some "09:30" },
                  tuesday := none, wednesday := none, thursday := none,
                  friday := none, saturday := none, sunday := none } }

/-- C10 amended-claim witness: two seed runs over one mechanic with a single
well-formed Monday entry, starting from an empty store. -/
theorem seed_idempotent_amended_witness :
    ∃ r1 store1 r2 store2,
      seed_availability [c10GoodMechanic] 0 false [] 1 = Except.ok (r1, store1) ∧
      seed_availability [c10GoodMechanic] 0 false store1 2 =
        Except.ok (r2, store2) ∧
      1 ≤ r1.created ∧ r2.created = 0 ∧ 1 ≤ r2.updated :=
  seed_idempotent_amended.1 [c10GoodMechanic] 0 1 2 []
    (by decide) (by decide) (by decide)

/-- The fields of a `services/{id}` document consulted by the booking
service: `get_service` returns the raw dict, read via `.get` with defaults
(30 minutes, `""`, `0`); fields it never reads are omitted. -/
structure ServiceDoc where
  name : Option String
  minutes : Option Nat
  price : Option Int
deriving DecidableEq

/-- A booking request (`models.BookingCreate`).  The requested start is in
minutes since the epoch.  Phone, address and vehicle fields are carried
verbatim by `model_dump()` and never read by the modelled operations, so
they are omitted here. -/
structure BookingCreate where
  service_id : String
  slot_start : Nat
  mechanic_id : Option String
  customer_name : String
  customer_email : String
  customer_zip : String
deriving DecidableEq

/-- A stored booking document.  Fields that are absent from a freshly
created document (approval, cancellation and calendar metadata) are
modelled as `none`. -/
structure Booking where
  service_id : String
  slot_start : Nat
  mechanic_id : Option String
  customer_name : String
  customer_email : String
  customer_zip : String
  slot_end : Nat
  status : String
  created_at : Nat
  updated_at : Nat
  service_name : String
  service_price : Int
  approved_by : Option String
  approval_timestamp : Option Nat
  approval_notes : Option String
  cancellation_reason : Option String
  cancelled_at : Option Nat
  calendar_event_id : Option String
deriving DecidableEq

/-- The three Firestore collections touched by the booking engine and
lifecycle manager. -/
structure DBState where
  bookings : List (String × Booking)
  availability : List (String × AvailDoc)
  services : List (String × ServiceDoc)
deriving DecidableEq

/-- Model of `slot_start.date().isoformat()` for a timestamp in minutes
since the epoch: the containing day's document id (1440 minutes per day). -/
def dayKey (t : Nat) : String := dayIso (t / 1440)

/-- Model of `slot_start.strftime("%H:%M")`: the time-of-day slot key. -/
def timeKey (t : Nat) : String := fmtHM (t % 1440)

/-- The occupancy value stored for the slot containing minute `t`, if any. -/
def slotAt (availability : List (String × AvailDoc)) (t : Nat) :
    Option String :=
  match dget availability (dayKey t) with
  | none => none
  | some d => dget d.slots (timeKey t)

/-- Embedding of `BookingService.create_booking_data`: `model_dump()` of the
payload plus the derived end time (`start + service minutes`), status
`"pending"`, server timestamps, and the denormalized service name and
price. -/
def create_booking_data (payload : BookingCreate) (service : ServiceDoc)
    (now : Nat) : Booking :=
  let service_duration := service.minutes.getD 30
  { service_id := payload.service_id,
    slot_start := payload.slot_start,
    mechanic_id := payload.mechanic_id,
    customer_name := payload.customer_name,
    customer_email := payload.customer_email,
    customer_zip := payload.customer_zip,
    slot_end := payload.slot_start + service_duration,
    status := "pending",
    created_at := now,
    updated_at := now,
    service_name := service.name.getD "",
    service_price := service.price.getD 0,
    approved_by := none,
    approval_timestamp := none,
    approval_notes := none,
    cancellation_reason := none,
    cancelled_at := none,
    calendar_event_id := none }

/-- Embedding of `BookingService.update_availability_cache`: inside the
booking transaction, mark the requested slot key `"booked"` in the pre-read
day document, or synthesize a minimal dynamically-generated day document if
none exists. -/
def update_availability_cache (booking_data : Booking)
    (availability : List (String × AvailDoc)) (snapshot : Option AvailDoc)
    (now : Nat) : List (String × AvailDoc) :=
  let booking_date := dayKey booking_data.slot_start
  let booking_time := timeKey booking_data.slot_start
  match snapshot with
  | some availability_data =>
      dset availability booking_date
        { availability_data with
            slots := dset availability_data.slots booking_time "booked",
            updated_at := now }
  | none =>
      dset availability booking_date
        { day := booking_date,
          slots := [(booking_time, "booked")],
          mechanics :=
            if strTruthy booking_data.mechanic_id then
              [(booking_data.mechanic_id.getD "", true)]
            else [],
          generated_dynamically := true,
          created_at := now,
          updated_at := now }

/-- The error taxonomy of the booking service: `SlotUnavailableError`,
`ServiceNotFoundError`, `BookingError`, and Python's `ImportError` (raised
by a failing `from … import …`). -/
inductive BookingErr where
  | slotUnavailable (msg : String)
  | serviceNotFound (msg : String)
  | bookingError (msg : String)
  | importError (nm : String)
  | uncaughtException (msg : String)
deriving DecidableEq

/-- Statuses `"pending"` and `"confirmed"`: the ones the conflict query matches
and the statuses under which a booking occupies its slot. -/
def activeStatus (b : Booking) : Prop :=
  b.status = "pending" ∨ b.status = "confirmed"

instance (b : Booking) : Decidable (activeStatus b) := by
  unfold activeStatus; infer_instance

/-- The conflict check inside the booking transaction: the query for
bookings with the same `slot_start` and status in `["pending", "confirmed"]`,
followed by the loop raising on any row whose `mechanic_id` equals the
resolved mechanic. -/
def bookingConflict (bookings : List (String × Booking)) (slot_start : Nat)
    (mechanic_id : Option String) : Bool :=
  bookings.any (fun kv =>
    kv.2.slot_start == slot_start &&
    (kv.2.status == "pending" || kv.2.status == "confirmed") &&
    kv.2.mechanic_id == mechanic_id)

/-- Embedding of the transactional closure `txn` inside
`BookingService.create_booking`: read the day's availability snapshot, check
for conflicting pending/confirmed bookings of the same mechanic and start
time (the query uses `payload.slot_start`, which `model_dump` copied into
`booking_data` unchanged), then write the booking and mark the slot booked.
Raising aborts the transaction, so the error result carries no state. -/
def create_booking_txn (st : DBState) (booking_data : Booking)
    (mechanic_id : Option String) (booking_ref : String) (now : Nat) :
    Except BookingErr DBState :=
  let booking_date := dayKey booking_data.slot_start
  let availability_snapshot := dget st.availability booking_date
  if bookingConflict st.bookings booking_data.slot_start mechanic_id then
    Except.error (BookingErr.slotUnavailable "Time slot is already booked")
  else
    Except.ok { st with
      bookings := dset st.bookings booking_ref booking_data,
      availability := update_availability_cache booking_data st.availability
        availability_snapshot now }

/-- Steps 3(end)–5 of `BookingService.create_booking` once a mechanic has
been resolved: overwrite `payload.mechanic_id` when the resolved id is
truthy, build the booking payload, and run the atomic transaction. -/
def createAttempt (st : DBState) (payload : BookingCreate)
    (service : ServiceDoc) (mechanic_id : Option String) (now : Nat)
    (booking_ref : String) : Except BookingErr DBState :=
  let payload' := if strTruthy mechanic_id then
    { payload with mechanic_id := mechanic_id } else payload
  let booking_data := create_booking_data payload' service now
  create_booking_txn st booking_data mechanic_id booking_ref now

/-- The state after an attempt: the committed state on success, the
unchanged state when the transaction raised. -/
def afterAttempt (st : DBState) (payload : BookingCreate)
    (service : ServiceDoc) (mechanic_id : Option String) (now : Nat)
    (booking_ref : String) : DBState :=
  match createAttempt st payload service mechanic_id now booking_ref with
  | Except.ok st' => st'
  | Except.error _ => st

/-- States reachable by serialized booking-creation transactions from a
store holding no bookings (the seeded availability and service catalogue are
arbitrary).  Each step resolves a truthy mechanic id, as a booking request
targeting a definite mechanic does. -/
inductive Reach : DBState → Prop where
  | init : ∀ availability services, Reach ⟨[], availability, services⟩
  | step : ∀ st payload service mechanic_id now booking_ref st',
      Reach st → strTruthy mechanic_id = true →
      createAttempt st payload service mechanic_id now booking_ref =
        Except.ok st' →
      Reach st'

/-- At most one pending-or-confirmed booking per (mechanic, slot_start). -/
def AtMostOnePerSlot (st : DBState) : Prop :=
  ∀ id1 id2 b1 b2, dget st.bookings id1 = some b1 →
    dget st.bookings id2 = some b2 → id1 ≠ id2 →
    activeStatus b1 → activeStatus b2 →
    ¬(b1.mechanic_id = b2.mechanic_id ∧ b1.slot_start = b2.slot_start)

/-- Every pending-or-confirmed booking's slot is marked "booked". -/
def ActiveSlotBooked (st : DBState) : Prop :=
  ∀ id b, dget st.bookings id = some b → activeStatus b →
    slotAt st.availability b.slot_start = some "booked"

/-- The booking collection has one entry per document id. -/
def keysNodup {α : Type} (m : List (String × α)) : Prop :=
  (m.map Prod.fst).Nodup

theorem dget_mem {α : Type} :
    ∀ (m : List (String × α)) (k : String) (v : α),
      dget m k = some v → (k, v) ∈ m := by
  intro m
  induction m with
  | nil => intro k v h; simp [dget] at h
  | cons hd tl ih =>
      intro k v h
      obtain ⟨k0, v0⟩ := hd
      by_cases h0 : k0 = k
      · subst h0
        simp [dget] at h
        simp [h]
      · simp only [dget, if_neg h0] at h
        exact List.mem_cons_of_mem _ (ih k v h)

theorem mem_keys_dset {α : Type} :
    ∀ (m : List (String × α)) (k a : String) (v : α),
      a ∈ (dset m k v).map Prod.fst ↔ a ∈ m.map Prod.fst ∨ a = k := by
  intro m
  induction m with
  | nil => intro k a v; simp [dset]
  | cons hd tl ih =>
      intro k a v
      obtain ⟨k0, v0⟩ := hd
      by_cases h0 : k0 = k
      all_goals simp [dset, h0, ih k a v]
      all_goals tauto

theorem keysNodup_dset {α : Type} :
    ∀ (m : List (String × α)) (k : String) (v : α),
      keysNodup m → keysNodup (dset m k v) := by
  intro m
  induction m with
  | nil => intro k v _; simp [dset, keysNodup]
  | cons hd tl ih =>
      intro k v hnd
      obtain ⟨k0, v0⟩ := hd
      simp only [keysNodup, List.map_cons, List.nodup_cons] at hnd
      by_cases h0 : k0 = k
      · subst h0
        simp only [dset, if_true, eq_self_iff_true, keysNodup, List.map_cons,
          List.nodup_cons]
        exact hnd
      · simp only [dset, if_neg h0, keysNodup, List.map_cons, List.nodup_cons]
        refine ⟨fun hin => ?_, ih k v hnd.2⟩
        rcases (mem_keys_dset tl k k0 v).mp hin with h | h
        · exact hnd.1 h
        · exact h0 h

theorem dget_of_mem_nodup {α : Type} :
    ∀ (m : List (String × α)) (k : String) (v : α),
      keysNodup m → (k, v) ∈ m → dget m k = some v := by
  intro m
  induction m with
  | nil => intro k v _ h; simp at h
  | cons hd tl ih =>
      intro k v hnd hmem
      obtain ⟨k0, v0⟩ := hd
      simp only [keysNodup, List.map_cons, List.nodup_cons] at hnd
      rcases List.mem_cons.mp hmem with heq | htl
      · injection heq with hk hv
        subst hk
        subst hv
        simp [dget]
      · have hkne : k0 ≠ k := by
          intro hk0
          subst hk0
          exact hnd.1 (List.mem_map.mpr ⟨(k0, v), htl, rfl⟩)
        simp only [dget, if_neg hkne]
        exact ih k v hnd.2 htl

/-- The transaction's conflict check fires exactly when some stored booking
row has the same start time, an active status, and the same mechanic. -/
theorem bookingConflict_iff (bks : List (String × Booking)) (t : Nat)
    (mech : Option String) :
    bookingConflict bks t mech = true ↔
      ∃ x ∈ bks, x.2.slot_start = t ∧ activeStatus x.2 ∧
        x.2.mechanic_id = mech := by
  unfold bookingConflict
  rw [List.any_eq_true]
  constructor
  · rintro ⟨x, hx, hpred⟩
    simp only [Bool.and_eq_true, Bool.or_eq_true, beq_iff_eq] at hpred
    exact ⟨x, hx, hpred.1.1, hpred.1.2, hpred.2⟩
  · rintro ⟨x, hx, h1, h2, h3⟩
    refine ⟨x, hx, ?_⟩
    simp only [Bool.and_eq_true, Bool.or_eq_true, beq_iff_eq]
    exact ⟨⟨h1, h2⟩, h3⟩

/-- Step 3's assignment `payload.mechanic_id = mechanic_id` guarded by
`if mechanic_id:` (Python truthiness). -/
def resolvedPayload (payload : BookingCreate) (mechanic_id : Option String) :
    BookingCreate :=
  if strTruthy mechanic_id then { payload with mechanic_id := mechanic_id }
  else payload

theorem resolvedPayload_slot_start (p : BookingCreate) (mech : Option String) :
    (resolvedPayload p mech).slot_start = p.slot_start := by
  unfold resolvedPayload; split <;> rfl

theorem resolvedPayload_mechanic_id (p : BookingCreate) (mech : Option String)
    (h : strTruthy mech = true) :
    (resolvedPayload p mech).mechanic_id = mech := by
  unfold resolvedPayload
  rw [if_pos h]

theorem createAttempt_eq (st : DBState) (p : BookingCreate) (svc : ServiceDoc)
    (mech : Option String) (now : Nat) (ref : String) :
    createAttempt st p svc mech now ref =
      create_booking_txn st (create_booking_data (resolvedPayload p mech) svc now)
        mech ref now := rfl

/-- Effect of the in-transaction availability write on slot lookups: the
requested slot key becomes "booked", every other (day, time) key is
unchanged (in the dynamic-create branch the day previously resolved to no
document, so its other time keys stay absent). -/
theorem slotAt_update_cache (bd : Booking) (av : List (String × AvailDoc))
    (now t : Nat) :
    slotAt (update_availability_cache bd av (dget av (dayKey bd.slot_start)) now) t =
      if dayKey t = dayKey bd.slot_start ∧ timeKey t = timeKey bd.slot_start
      then some "booked"
      else slotAt av t := by
  unfold update_availability_cache slotAt
  cases hsnap : dget av (dayKey bd.slot_start) with
  | none =>
      by_cases hd : dayKey t = dayKey bd.slot_start
      · rw [hd, dget_dset_self]
        by_cases ht : timeKey t = timeKey bd.slot_start
        · simp [hd, ht, dget]
        · simp only [hd, ht, and_false, if_false]
          have ht' : ¬timeKey bd.slot_start = timeKey t := fun hh => ht hh.symm
          simp [dget, ht', hsnap]
      · rw [dget_dset_ne _ _ _ _ (fun hh => hd hh.symm)]
        simp [hd]
  | some d =>
      by_cases hd : dayKey t = dayKey bd.slot_start
      · rw [hd, dget_dset_self]
        by_cases ht : timeKey t = timeKey bd.slot_start
        · simp [hd, ht, dget_dset_self]
        · simp only [hd, ht, and_true, and_false, if_false, if_true]
          rw [dget_dset_ne _ _ _ _ (fun hh => ht hh.symm)]
          simp [hd, hsnap]
      · rw [dget_dset_ne _ _ _ _ (fun hh => hd hh.symm)]
        simp [hd]

/-- Unpacking a committed booking transaction: the conflict check was clear
and the new state is the old one plus the booking write and the slot
marking. -/
theorem createAttempt_ok_elim (st : DBState) (p : BookingCreate)
    (svc : ServiceDoc) (mech : Option String) (now : Nat) (ref : String)
    (st' : DBState)
    (h : createAttempt st p svc mech now ref = Except.ok st') :
    bookingConflict st.bookings p.slot_start mech = false ∧
    st' = { st with
      bookings := dset st.bookings ref
        (create_booking_data (resolvedPayload p mech) svc now),
      availability := update_availability_cache
        (create_booking_data (resolvedPayload p mech) svc now) st.availability
        (dget st.availability (dayKey p.slot_start)) now } := by
  rw [createAttempt_eq] at h
  have hss : (create_booking_data (resolvedPayload p mech) svc now).slot_start =
      p.slot_start := resolvedPayload_slot_start p mech
  unfold create_booking_txn at h
  rw [hss] at h
  by_cases hc : bookingConflict st.bookings p.slot_start mech = true
  · rw [if_pos hc] at h
    cases h
  · have hc' : bookingConflict st.bookings p.slot_start mech = false := by
      cases hh : bookingConflict st.bookings p.slot_start mech
      · rfl
      · exact absurd hh hc
    rw [if_neg hc] at h
    injection h with h
    exact ⟨hc', h.symm⟩

/-- After a committed attempt the requested slot is marked "booked". -/
theorem slotAt_after_ok (st : DBState) (p : BookingCreate) (svc : ServiceDoc)
    (mech : Option String) (now : Nat) (ref : String) (st' : DBState)
    (h : createAttempt st p svc mech now ref = Except.ok st') :
    slotAt st'.availability p.slot_start = some "booked" := by
  obtain ⟨-, hst'⟩ := createAttempt_ok_elim st p svc mech now ref st' h
  subst hst'
  have hss : (create_booking_data (resolvedPayload p mech) svc now).slot_start =
      p.slot_start := resolvedPayload_slot_start p mech
  dsimp only
  rw [← hss, slotAt_update_cache]
  simp

/-- After a committed attempt the new booking document is stored at the
fresh reference. -/
theorem booking_after_ok (st : DBState) (p : BookingCreate) (svc : ServiceDoc)
    (mech : Option String) (now : Nat) (ref : String) (st' : DBState)
    (h : createAttempt st p svc mech now ref = Except.ok st') :
    dget st'.bookings ref =
      some (create_booking_data (resolvedPayload p mech) svc now) := by
  obtain ⟨-, hst'⟩ := createAttempt_ok_elim st p svc mech now ref st' h
  subst hst'
  exact dget_dset_self _ _ _

/-- A failed attempt is exactly a fired conflict check. -/
theorem createAttempt_error_elim (st : DBState) (p : BookingCreate)
    (svc : ServiceDoc) (mech : Option String) (now : Nat) (ref : String)
    (e : BookingErr)
    (h : createAttempt st p svc mech now ref = Except.error e) :
    bookingConflict st.bookings p.slot_start mech = true := by
  rw [createAttempt_eq] at h
  unfold create_booking_txn at h
  have hss : (create_booking_data (resolvedPayload p mech) svc now).slot_start =
      p.slot_start := resolvedPayload_slot_start p mech
  rw [hss] at h
  by_cases hc : bookingConflict st.bookings p.slot_start mech = true
  · exact hc
  · rw [if_neg hc] at h
    cases h

/-- Invariants of states reachable by serialized booking-creation
transactions: unique document ids, at most one active booking per
(mechanic, slot), and every active booking's slot marked "booked". -/
theorem reach_invariant : ∀ st, Reach st →
    keysNodup st.bookings ∧ AtMostOnePerSlot st ∧ ActiveSlotBooked st := by
  intro st h
  induction h with
  | init av svcs =>
      refine ⟨by simp [keysNodup], ?_, ?_⟩
      · intro id1 id2 b1 b2 h1
        simp [dget] at h1
      · intro id b hb
        simp [dget] at hb
  | step st p svc mech now ref st' hre htru hok ih =>
      obtain ⟨hnd, hone, hbooked⟩ := ih
      obtain ⟨hconf, hst'⟩ := createAttempt_ok_elim st p svc mech now ref st' hok
      generalize hbd : create_booking_data (resolvedPayload p mech) svc now = bd
        at hst'
      have hbd_slot : bd.slot_start = p.slot_start := by
        rw [← hbd]; exact resolvedPayload_slot_start p mech
      have hbd_mech : bd.mechanic_id = mech := by
        rw [← hbd]
        show (resolvedPayload p mech).mechanic_id = mech
        exact resolvedPayload_mechanic_id p mech htru
      have hbd_status : activeStatus bd := by
        rw [← hbd]; exact Or.inl rfl
      have hnoconf : ∀ id2 b2, dget st.bookings id2 = some b2 →
          activeStatus b2 →
          ¬(b2.mechanic_id = mech ∧ b2.slot_start = p.slot_start) := by
        rintro id2 b2 hb2 hab2 ⟨hm, hs⟩
        have hc : bookingConflict st.bookings p.slot_start mech = true :=
          (bookingConflict_iff _ _ _).mpr
            ⟨(id2, b2), dget_mem _ _ _ hb2, hs, hab2, hm⟩
        rw [hconf] at hc
        cases hc
      subst hst'
      refine ⟨keysNodup_dset _ _ _ hnd, ?_, ?_⟩
      · intro id1 id2 b1 b2 h1 h2 hne ha1 ha2 hcon
        dsimp only at h1 h2
        rw [dget_dset] at h1 h2
        by_cases e1 : ref = id1 <;> by_cases e2 : ref = id2
        · exact hne (e1.symm.trans e2)
        · rw [if_pos e1] at h1
          injection h1 with h1
          rw [if_neg e2] at h2
          refine hnoconf id2 b2 h2 ha2 ⟨?_, ?_⟩
          · rw [← hcon.1, ← h1, hbd_mech]
          · rw [← hcon.2, ← h1, hbd_slot]
        · rw [if_neg e1] at h1
          rw [if_pos e2] at h2
          injection h2 with h2
          refine hnoconf id1 b1 h1 ha1 ⟨?_, ?_⟩
          · rw [hcon.1, ← h2, hbd_mech]
          · rw [hcon.2, ← h2, hbd_slot]
        · rw [if_neg e1] at h1
          rw [if_neg e2] at h2
          exact hone id1 id2 b1 b2 h1 h2 hne ha1 ha2 hcon
      · intro id b hb hab
        dsimp only at hb ⊢
        rw [dget_dset] at hb
        rw [← hbd_slot, slotAt_update_cache]
        by_cases hcond : dayKey b.slot_start = dayKey bd.slot_start ∧
            timeKey b.slot_start = timeKey bd.slot_start
        · rw [if_pos hcond]
        · rw [if_neg hcond]
          by_cases e : ref = id
          · rw [if_pos e] at hb
            injection hb with hb
            exact absurd ⟨by rw [← hb], by rw [← hb]⟩ hcond
          · rw [if_neg e] at hb
            exact hbooked id b hb hab

/-- C1: the booking transaction fails with `SlotUnavailable` whenever an
active (pending/confirmed) booking with the same mechanic and start time
exists; states reachable by serialized creation transactions have at most
one active booking per (mechanic, slot_start); of two serialized requests
for the same mechanic and start time at most one commits, the loser's
transaction writes nothing, and afterwards the availability slot for that
time is "booked"; a committed request stores a booking with status
"pending" carrying the resolved mechanic and the requested start. -/
theorem exactly_once_reservation :
    (∀ st (bd : Booking) mech ref now,
      (∃ id b, dget st.bookings id = some b ∧ activeStatus b ∧
        b.mechanic_id = mech ∧ b.slot_start = bd.slot_start) →
      create_booking_txn st bd mech ref now =
        Except.error (BookingErr.slotUnavailable "Time slot is already booked"))
    ∧ (∀ st, Reach st → AtMostOnePerSlot st)
    ∧ (∀ st p1 p2 svc1 svc2 mech now1 now2 ref1 ref2,
        Reach st → strTruthy mech = true →
        p2.slot_start = p1.slot_start →
        ¬((createAttempt st p1 svc1 mech now1 ref1).isOk = true ∧
          (createAttempt (afterAttempt st p1 svc1 mech now1 ref1) p2 svc2 mech
            now2 ref2).isOk = true) ∧
        slotAt (afterAttempt (afterAttempt st p1 svc1 mech now1 ref1) p2 svc2
          mech now2 ref2).availability p1.slot_start = some "booked")
    ∧ (∀ st p svc mech now ref st', strTruthy mech = true →
        createAttempt st p svc mech now ref = Except.ok st' →
        dget st'.bookings ref =
          some (create_booking_data (resolvedPayload p mech) svc now) ∧
        (create_booking_data (resolvedPayload p mech) svc now).status =
          "pending" ∧
        (create_booking_data (resolvedPayload p mech) svc now).mechanic_id =
          mech ∧
        (create_booking_data (resolvedPayload p mech) svc now).slot_start =
          p.slot_start) := by
  refine ⟨?_, ?_, ?_, ?_⟩
  · rintro st bd mech ref now ⟨id, b, hb, hab, hm, hs⟩
    have hc : bookingConflict st.bookings bd.slot_start mech = true :=
      (bookingConflict_iff _ _ _).mpr ⟨(id, b), dget_mem _ _ _ hb, hs, hab, hm⟩
    unfold create_booking_txn
    rw [if_pos hc]
  · intro st hre
    exact (reach_invariant st hre).2.1
  · intro st p1 p2 svc1 svc2 mech now1 now2 ref1 ref2 hre htru hss
    obtain ⟨hnd, hone, hbooked⟩ := reach_invariant st hre
    cases h1 : createAttempt st p1 svc1 mech now1 ref1 with
    | ok st1 =>
        have hA1 : afterAttempt st p1 svc1 mech now1 ref1 = st1 := by
          simp [afterAttempt, h1]
        have hbd1 := booking_after_ok st p1 svc1 mech now1 ref1 st1 h1
        have hc2 : bookingConflict st1.bookings p2.slot_start mech = true := by
          refine (bookingConflict_iff _ _ _).mpr
            ⟨(ref1, create_booking_data (resolvedPayload p1 mech) svc1 now1),
             dget_mem _ _ _ hbd1, ?_, Or.inl rfl, ?_⟩
          · rw [hss]
            exact resolvedPayload_slot_start p1 mech
          · exact resolvedPayload_mechanic_id p1 mech htru
        have h2 : createAttempt st1 p2 svc2 mech now2 ref2 =
            Except.error
              (BookingErr.slotUnavailable "Time slot is already booked") := by
          rw [createAttempt_eq]
          unfold create_booking_txn
          have hss2 : (create_booking_data (resolvedPayload p2 mech) svc2
              now2).slot_start = p2.slot_start :=
            resolvedPayload_slot_start p2 mech
          rw [hss2, if_pos hc2]
        rw [hA1]
        constructor
        · rintro ⟨-, hok2⟩
          rw [h2] at hok2
          simp [Except.isOk, Except.toBool] at hok2
        · have hA2 : afterAttempt st1 p2 svc2 mech now2 ref2 = st1 := by
            simp [afterAttempt, h2]
          rw [hA2]
          exact slotAt_after_ok st p1 svc1 mech now1 ref1 st1 h1
    | error e =>
        have hA1 : afterAttempt st p1 svc1 mech now1 ref1 = st := by
          simp [afterAttempt, h1]
        have hc1 := createAttempt_error_elim st p1 svc1 mech now1 ref1 e h1
        obtain ⟨x, hx, hxs, hxa, hxm⟩ := (bookingConflict_iff _ _ _).mp hc1
        have hxget : dget st.bookings x.1 = some x.2 :=
          dget_of_mem_nodup _ _ _ hnd (by rwa [Prod.mk.eta])
        have hbooked1 : slotAt st.availability p1.slot_start = some "booked" := by
          have hb := hbooked x.1 x.2 hxget hxa
          rwa [hxs] at hb
        rw [hA1]
        constructor
        · rintro ⟨hok1, -⟩
          simp [Except.isOk, Except.toBool] at hok1
        · cases h2 : createAttempt st p2 svc2 mech now2 ref2 with
          | ok st2 =>
              have hA2 : afterAttempt st p2 svc2 mech now2 ref2 = st2 := by
                simp [afterAttempt, h2]
              rw [hA2, ← hss]
              exact slotAt_after_ok st p2 svc2 mech now2 ref2 st2 h2
          | error e2 =>
              have hA2 : afterAttempt st p2 svc2 mech now2 ref2 = st := by
                simp [afterAttempt, h2]
              rw [hA2]
              exact hbooked1
  · intro st p svc mech now ref st' htru hok
    exact ⟨booking_after_ok st p svc mech now ref st' hok, rfl,
      resolvedPayload_mechanic_id p mech htru,
      resolvedPayload_slot_start p mech⟩

/-- A concrete booking request used by witnesses: 09:00 on day 0. -/
def c1Payload : BookingCreate :=
  { service_id := "svc-1", slot_start := 540, mechanic_id := none,
    customer_name := "Test Customer", customer_email := "test@example.com",
    customer_zip := "78701" }

/-- A concrete service document used by witnesses: 30 minutes, price 50. -/
def c1Service : ServiceDoc :=
  { name := some "Oil Change", minutes := some 30, price := some 50 }

/-- C1 witness: two serialized requests for mechanic "mech-1" at 09:00 from
an empty store — the race theorem applied at concrete inputs. -/
theorem exactly_once_reservation_witness :
    ¬((createAttempt ⟨[], [], []⟩ c1Payload c1Service (some "mech-1") 0
        "b1").isOk = true ∧
      (createAttempt (afterAttempt ⟨[], [], []⟩ c1Payload c1Service
          (some "mech-1") 0 "b1") c1Payload c1Service (some "mech-1") 1
        "b2").isOk = true) ∧
    slotAt (afterAttempt (afterAttempt ⟨[], [], []⟩ c1Payload c1Service
        (some "mech-1") 0 "b1") c1Payload c1Service (some "mech-1") 1
      "b2").availability c1Payload.slot_start = some "booked" :=
  exactly_once_reservation.2.2.1 ⟨[], [], []⟩ c1Payload c1Payload c1Service
    c1Service (some "mech-1") 0 1 "b1" "b2" (Reach.init [] []) (by decide) rfl

/-- C4: the booking written by a successful creation has
`slot_end = slot_start + minutes`, status "pending", and the service name
and price denormalized from the service record; the same transaction that
stores the booking marks the availability slot for the requested start
"booked". -/
theorem booking_payload_denormalized :
    (∀ payload service now m nm pr,
      service.minutes = some m → service.name = some nm →
      service.price = some pr →
      (create_booking_data payload service now).slot_end =
        payload.slot_start + m ∧
      (create_booking_data payload service now).status = "pending" ∧
      (create_booking_data payload service now).service_name = nm ∧
      (create_booking_data payload service now).service_price = pr)
    ∧ (∀ st (bd : Booking) mech ref now st',
        create_booking_txn st bd mech ref now = Except.ok st' →
        dget st'.bookings ref = some bd ∧
        slotAt st'.availability bd.slot_start = some "booked") := by
  constructor
  · intro payload service now m nm pr hm hn hp
    refine ⟨?_, rfl, ?_, ?_⟩ <;> simp [create_booking_data, hm, hn, hp]
  · intro st bd mech ref now st' h
    unfold create_booking_txn at h
    by_cases hc : bookingConflict st.bookings bd.slot_start mech = true
    · rw [if_pos hc] at h
      cases h
    · rw [if_neg hc] at h
      injection h with h
      subst h
      refine ⟨dget_dset_self _ _ _, ?_⟩
      dsimp only
      rw [slotAt_update_cache]
      simp

/-- The state committed by the C4 witness transaction. -/
def c4State : DBState :=
  match create_booking_txn ⟨[], [], []⟩
      (create_booking_data c1Payload c1Service 0) (some "mech-1") "b1" 0 with
  | Except.ok st' => st'
  | Except.error _ => ⟨[], [], []⟩

/-- C4 witness: the payload theorem applied to the concrete 30-minute
"Oil Change" service, and the transaction theorem applied to a committed
booking at 09:00 from an empty store. -/
theorem booking_payload_denormalized_witness :
    ((create_booking_data c1Payload c1Service 7).slot_end =
        c1Payload.slot_start + 30 ∧
      (create_booking_data c1Payload c1Service 7).status = "pending" ∧
      (create_booking_data c1Payload c1Service 7).service_name =
        "Oil Change" ∧
      (create_booking_data c1Payload c1Service 7).service_price = 50) ∧
    (dget c4State.bookings "b1" =
        some (create_booking_data c1Payload c1Service 0) ∧
      slotAt c4State.availability
        (create_booking_data c1Payload c1Service 0).slot_start =
        some "booked") :=
  ⟨booking_payload_denormalized.1 c1Payload c1Service 7 30 "Oil Change" 50
      rfl rfl rfl,
   booking_payload_denormalized.2 ⟨[], [], []⟩
      (create_booking_data c1Payload c1Service 0) (some "mech-1") "b1" 0
      c4State (by rfl)⟩

/-- The pending booking denied by the C7 witness (mechanic "mech-1",
slot 09:00 on day 0). -/
def c7Booking : Booking :=
  create_booking_data { c1Payload with mechanic_id := some "mech-1" }
    c1Service 0

/-- The C7 witness store: one pending booking and its slot "booked". -/
def c7State : DBState :=
  ⟨[("b1", c7Booking)],
   [("0", { day := "0", slots := [("09:00", "booked")],
            mechanics := [("mech-1", true)], generated_dynamically := false,
            created_at := 0, updated_at := 0 })],
   []⟩

/-- Embedding of `cancel_booking_txn` in
`backend/app/routers/bookings.py::cancel_booking`: only the booking's own
customer or an admin may cancel, only from status "pending" or "confirmed";
on success the booking gains cancellation metadata and the slot is freed if
currently "booked".  An `HTTPException` raised inside the transaction aborts
it, modelled as `Except.error (code, message)`; `Except.ok none` is a
missing booking (the endpoint then raises 404). -/
def cancel_booking_txn (st : DBState) (booking_id : String)
    (reason : Option String) (user_role user_email : String) (now : Nat) :
    Except (Nat × String) (Option DBState) :=
  match dget st.bookings booking_id with
  | none => Except.ok none
  | some booking_data =>
      if user_role ≠ "admin" ∧ booking_data.customer_email ≠ user_email then
        Except.error (403, "Not authorized to cancel this booking")
      else if booking_data.status ≠ "pending" ∧
          booking_data.status ≠ "confirmed" then
        Except.error
          (400, "Cannot cancel booking with status: " ++ booking_data.status)
      else
        let booking' := { booking_data with
          status := "cancelled",
          cancellation_reason := reason,
          cancelled_at := some now,
          updated_at := now }
        let st1 := { st with
          bookings := dset st.bookings booking_id booking' }
        let slot_date := dayKey booking_data.slot_start
        let slot_time := timeKey booking_data.slot_start
        match dget st.availability slot_date with
        | none => Except.ok (some st1)
        | some avail_data =>
            if dget avail_data.slots slot_time = some "booked" then
              let avail' := { avail_data with
                slots := dset avail_data.slots slot_time "free",
                updated_at := now }
              Except.ok (some { st1 with
                availability := dset st.availability slot_date avail' })
            else Except.ok (some st1)

/-- The store after the cancel endpoint: an aborted transaction (error) or a
missing booking commits nothing. -/
def cancelResultState (st : DBState) (booking_id : String)
    (reason : Option String) (user_role user_email : String) (now : Nat) :
    DBState :=
  match cancel_booking_txn st booking_id reason user_role user_email now with
  | Except.ok (some st') => st'
  | _ => st

/-- C8: cancelling is permitted only for the booking's customer or an admin
and only from status "pending" or "confirmed"; any other status yields the
invalid-state error and leaves the store unchanged; an unauthorized caller
yields the permission error; on success the booking becomes "cancelled" with
reason and timestamp and the slot is freed exactly when it was "booked". -/
theorem cancel_state_machine (st : DBState) (bid : String) (b : Booking)
    (reason : Option String) (role email : String) (now : Nat)
    (hb : dget st.bookings bid = some b) :
    ((role ≠ "admin" ∧ b.customer_email ≠ email →
      cancel_booking_txn st bid reason role email now =
        Except.error (403, "Not authorized to cancel this booking") ∧
      cancelResultState st bid reason role email now = st)
    ∧ ((role = "admin" ∨ b.customer_email = email) →
        b.status ≠ "pending" → b.status ≠ "confirmed" →
        cancel_booking_txn st bid reason role email now =
          Except.error (400, "Cannot cancel booking with status: " ++ b.status) ∧
        cancelResultState st bid reason role email now = st)
    ∧ ((role = "admin" ∨ b.customer_email = email) →
        (b.status = "pending" ∨ b.status = "confirmed") →
        ∃ st', cancel_booking_txn st bid reason role email now =
            Except.ok (some st') ∧
          (∃ b', dget st'.bookings bid = some b' ∧ b'.status = "cancelled" ∧
            b'.cancellation_reason = reason ∧ b'.cancelled_at = some now) ∧
          slotAt st'.availability b.slot_start =
            (if slotAt st.availability b.slot_start = some "booked"
             then some "free"
             else slotAt st.availability b.slot_start))) := by
  refine ⟨?_, ?_, ?_⟩
  · rintro ⟨hrole, hemail⟩
    have htxn : cancel_booking_txn st bid reason role email now =
        Except.error (403, "Not authorized to cancel this booking") := by
      unfold cancel_booking_txn
      rw [hb]
      dsimp only
      rw [if_pos ⟨hrole, hemail⟩]
    exact ⟨htxn, by unfold cancelResultState; rw [htxn]⟩
  · intro hperm hs1 hs2
    have hnperm : ¬(role ≠ "admin" ∧ b.customer_email ≠ email) := by
      rcases hperm with h | h
      · exact fun hc => hc.1 h
      · exact fun hc => hc.2 h
    have htxn : cancel_booking_txn st bid reason role email now =
        Except.error
          (400, "Cannot cancel booking with status: " ++ b.status) := by
      unfold cancel_booking_txn
      rw [hb]
      dsimp only
      rw [if_neg hnperm, if_pos ⟨hs1, hs2⟩]
    exact ⟨htxn, by unfold cancelResultState; rw [htxn]⟩
  · intro hperm hstatus
    have hnperm : ¬(role ≠ "admin" ∧ b.customer_email ≠ email) := by
      rcases hperm with h | h
      · exact fun hc => hc.1 h
      · exact fun hc => hc.2 h
    have hnstatus : ¬(b.status ≠ "pending" ∧ b.status ≠ "confirmed") := by
      rcases hstatus with h | h
      · exact fun hc => hc.1 h
      · exact fun hc => hc.2 h
    unfold cancel_booking_txn
    rw [hb]
    dsimp only
    rw [if_neg hnperm, if_neg hnstatus]
    cases hav : dget st.availability (dayKey b.slot_start) with
    | none =>
        dsimp only
        refine ⟨_, rfl, ⟨_, dget_dset_self _ _ _, rfl, rfl, rfl⟩, ?_⟩
        have hslot : slotAt st.availability b.slot_start = none := by
          unfold slotAt
          rw [hav]
        dsimp only
        rw [hslot]
        simp
    | some avail_data =>
        dsimp only
        by_cases hbk : dget avail_data.slots (timeKey b.slot_start) =
            some "booked"
        · rw [if_pos hbk]
          refine ⟨_, rfl, ⟨_, dget_dset_self _ _ _, rfl, rfl, rfl⟩, ?_⟩
          have hslot : slotAt st.availability b.slot_start = some "booked" := by
            unfold slotAt
            rw [hav]
            exact hbk
          dsimp only
          rw [hslot, if_pos rfl]
          unfold slotAt
          rw [dget_dset_self]
          dsimp only
          exact dget_dset_self _ _ _
        · rw [if_neg hbk]
          refine ⟨_, rfl, ⟨_, dget_dset_self _ _ _, rfl, rfl, rfl⟩, ?_⟩
          have hslot : slotAt st.availability b.slot_start =
              dget avail_data.slots (timeKey b.slot_start) := by
            unfold slotAt
            rw [hav]
          dsimp only
          rw [hslot, if_neg hbk]

/-- C8 witness: the cancel theorem applied to the concrete store of C7
(owner cancels a pending booking; an admin faces the invalid-state error on
a completed booking via the same theorem at a second store). -/
theorem cancel_state_machine_witness :
    ((("customer" : String) ≠ "admin" ∧
        c7Booking.customer_email ≠ "test@example.com" →
      cancel_booking_txn c7State "b1" none "customer" "test@example.com" 9 =
        Except.error (403, "Not authorized to cancel this booking") ∧
      cancelResultState c7State "b1" none "customer" "test@example.com" 9 =
        c7State)
    ∧ ((("customer" : String) = "admin" ∨
          c7Booking.customer_email = "test@example.com") →
        c7Booking.status ≠ "pending" → c7Booking.status ≠ "confirmed" →
        cancel_booking_txn c7State "b1" none "customer" "test@example.com" 9 =
          Except.error (400, "Cannot cancel booking with status: " ++
            c7Booking.status) ∧
        cancelResultState c7State "b1" none "customer" "test@example.com" 9 =
          c7State)
    ∧ ((("customer" : String) = "admin" ∨
          c7Booking.customer_email = "test@example.com") →
        (c7Booking.status = "pending" ∨ c7Booking.status = "confirmed") →
        ∃ st', cancel_booking_txn c7State "b1" none "customer"
            "test@example.com" 9 = Except.ok (some st') ∧
          (∃ b', dget st'.bookings "b1" = some b' ∧ b'.status = "cancelled" ∧
            b'.cancellation_reason = none ∧ b'.cancelled_at = some 9) ∧
          slotAt st'.availability c7Booking.slot_start =
            (if slotAt c7State.availability c7Booking.slot_start =
                some "booked"
             then some "free"
             else slotAt c7State.availability c7Booking.slot_start))) :=
  cancel_state_machine c7State "b1" c7Booking none "customer"
    "test@example.com" 9 (by rfl)

/-- The exceptions `create_event` can raise, split by what the
`except GoogleAPIError` clause in `create_booking` catches:
`googleApiError` stands for `google.api_core.exceptions.GoogleAPIError`
(the only type that clause catches — also raised by the Firestore update of
the event id); `otherException` stands for every other exception type — in
particular `googleapiclient.errors.HttpError`, which the
`googleapiclient`-based `create_event` raises on an API failure and which
is not a `GoogleAPIError` subclass. -/
inductive CalendarErr where
  | googleApiError (msg : String)
  | otherException (msg : String)
deriving DecidableEq

/-- Step 7 of `BookingService.create_booking` (after the transaction has
committed): best-effort calendar-event creation.  `calendar` is the outcome
of `create_event(booking_out)`.  On success the event id is persisted on
the stored booking and set on the response.  A `GoogleAPIError` failure is
caught, logged and swallowed: the store is untouched and the booking is
still returned.  A failure of any other exception type is not caught by the
`except GoogleAPIError` clause and propagates out of `create_booking`; the
already-committed records are not rolled back. -/
def create_booking_post_commit (st : DBState) (booking_out : Booking)
    (booking_id : String) (calendar : Except CalendarErr String) :
    Except BookingErr Booking × DBState :=
  match calendar with
  | Except.ok calendar_event_id =>
      (Except.ok { booking_out with
        calendar_event_id := some calendar_event_id },
       { st with bookings :=
          match dget st.bookings booking_id with
          | some stored =>
              dset st.bookings booking_id
                { stored with calendar_event_id := some calendar_event_id }
          | none => st.bookings })
  | Except.error (CalendarErr.googleApiError _) => (Except.ok booking_out, st)
  | Except.error (CalendarErr.otherException msg) =>
      (Except.error (BookingErr.uncaughtException msg), st)

/-- C9 counterexample: the claim says every failure of the post-commit
calendar-event creation is logged and swallowed and the booking is never
reported as failed, but the source catches only
`google.api_core.exceptions.GoogleAPIError`, while `create_event`'s API
failures raise `googleapiclient.errors.HttpError` from a different
exception hierarchy.  At this concrete committed state such a failure
propagates: `create_booking` reports an error to the caller (the router
turns it into HTTP 500) even though the booking stays committed. -/
theorem calendar_failure_counterexample :
    (create_booking_post_commit c4State
        (create_booking_data c1Payload c1Service 0) "b1"
        (Except.error (CalendarErr.otherException "HttpError 500"))).1 =
      Except.error (BookingErr.uncaughtException "HttpError 500") ∧
    (create_booking_post_commit c4State
        (create_booking_data c1Payload c1Service 0) "b1"
        (Except.error (CalendarErr.otherException "HttpError 500"))).2 =
      c4State :=
  ⟨rfl, rfl⟩

/-- C9 (amended): a `GoogleAPIError` failure of the post-commit
calendar-event creation is logged and swallowed — the committed booking and
availability records are untouched and `create_booking` still returns the
booking successfully; a calendar failure of any other exception type
(such as `googleapiclient.errors.HttpError`) propagates to the caller after
the commit, reporting the call as failed, but still leaves the committed
records exactly as the transaction wrote them — no rollback either way. -/
theorem calendar_failure_swallowed_amended :
    (∀ (st : DBState) (booking_out : Booking) (booking_id msg : String),
      (create_booking_post_commit st booking_out booking_id
        (Except.error (CalendarErr.googleApiError msg))).1 =
        Except.ok booking_out ∧
      (create_booking_post_commit st booking_out booking_id
        (Except.error (CalendarErr.googleApiError msg))).2 = st)
    ∧ (∀ (st : DBState) (booking_out : Booking) (booking_id msg : String),
      (create_booking_post_commit st booking_out booking_id
        (Except.error (CalendarErr.otherException msg))).1 =
        Except.error (BookingErr.uncaughtException msg) ∧
      (create_booking_post_commit st booking_out booking_id
        (Except.error (CalendarErr.otherException msg))).2 = st) :=
  ⟨fun _ _ _ _ => ⟨rfl, rfl⟩, fun _ _ _ _ => ⟨rfl, rfl⟩⟩

/-- The module-level names of `backend/app/routers/availability.py`: its
imports and its three definitions plus the router object.  A
`from ..routers.availability import nm` succeeds exactly when `nm` is in
this namespace. -/
def availabilityRouterNames : List String :=
  ["APIRouter", "Query", "Depends", "HTTPException",
   "date", "timedelta", "datetime",
   "Slot", "AvailabilitySeedRequest", "AvailabilitySeedResult",
   "DaySchedule", "Mechanic",
   "build_slots",
   "get_scheduler_or_mechanic_user", "User",
   "get_client",
   "retry", "retry_if_exception_type", "stop_after_attempt",
   "wait_exponential",
   "ServiceUnavailable", "Aborted",
   "firestore",
   "router", "get_availability", "_update_availability_in_transaction",
   "seed_availability"]

/-- Python `from ..routers.availability import nm`, executed at call time
inside `validate_availability`: `ImportError` when the attribute is absent
from the module namespace. -/
def importFromAvailabilityRouter (nm : String) : Except BookingErr Unit :=
  if nm ∈ availabilityRouterNames then Except.ok ()
  else Except.error (BookingErr.importError nm)

/-- Embedding of `BookingService.validate_availability`.  Its first action
is `from ..routers.availability import _generate_availability_for_day`; no
definition of that name exists anywhere in the repository (only imports in
this service and in tests), so the import raises and the rest of the
function body — which would call the imported function — is unreachable and
carries no modelled behaviour (the `Except.ok none` below is dead code
behind a decidably false condition). -/
def validate_availability : Except BookingErr (Option String) :=
  match importFromAvailabilityRouter "_generate_availability_for_day" with
  | Except.error e => Except.error e
  | Except.ok _ => Except.ok none

/-- Embedding of `backend/app/utils/service_area.py::validate_service_area`
with the configured ZIP allow-list passed in (the source reads it from
Secret Manager or the environment; an empty list means "no service area
configured, allow all"). -/
def validate_service_area (service_zips : List String)
    (customer_zip : String) : Except String Bool :=
  if customer_zip = "" then Except.error "ZIP code is required"
  else
    let cleaned_zip := ((customer_zip.trim).splitOn "-").headD ""
    if service_zips = [] then Except.ok true
    else if cleaned_zip ∈ service_zips then Except.ok true
    else Except.error ("Sorry, we don't currently service the " ++
      cleaned_zip ++ " area. Please contact us to see if we can accommodate" ++
      " your location.")

/-- Embedding of `BookingService.get_service`. -/
def get_service (st : DBState) (service_id : String) :
    Except BookingErr ServiceDoc :=
  match dget st.services service_id with
  | none => Except.error
      (BookingErr.serviceNotFound ("Service " ++ service_id ++ " not found"))
  | some svc => Except.ok svc

/-- Embedding of `BookingService.create_booking` end to end: service-area
validation (a `ServiceAreaError` is re-raised as `BookingError`), service
lookup, availability validation, then the atomic transaction and the
best-effort post-commit calendar step.  The returned state is the stored
collections after the call; an exception before the commit leaves them
unchanged, and one after the commit keeps the committed writes. -/
def create_booking (service_zips : List String) (st : DBState)
    (payload : BookingCreate) (now : Nat) (booking_ref : String)
    (calendar : Except CalendarErr String) :
    Except BookingErr Booking × DBState :=
  match validate_service_area service_zips payload.customer_zip with
  | Except.error e => (Except.error (BookingErr.bookingError e), st)
  | Except.ok _ =>
      match get_service st payload.service_id with
      | Except.error e => (Except.error e, st)
      | Except.ok service =>
          match validate_availability with
          | Except.error e => (Except.error e, st)
          | Except.ok mechanic_id =>
              match createAttempt st payload service mechanic_id now
                  booking_ref with
              | Except.error e => (Except.error e, st)
              | Except.ok st' =>
                  create_booking_post_commit st'
                    (create_booking_data (resolvedPayload payload mechanic_id)
                      service now)
                    booking_ref calendar

/-- C3: `_generate_availability_for_day` is absent from the availability
router's namespace, so `validate_availability` always raises `ImportError`;
consequently every call to `create_booking` returns an error with the
stored state unchanged — the atomic transaction is never executed — and any
payload that passes the service-area and service-lookup steps fails with
exactly that `ImportError` during availability validation. -/
theorem create_booking_always_fails :
    ("_generate_availability_for_day" ∈ availabilityRouterNames → False)
    ∧ validate_availability =
        Except.error (BookingErr.importError "_generate_availability_for_day")
    ∧ (∀ service_zips st payload now booking_ref calendar,
        (create_booking service_zips st payload now booking_ref calendar).2 =
          st ∧
        ∃ e, (create_booking service_zips st payload now booking_ref
          calendar).1 = Except.error e)
    ∧ (∀ service_zips st payload now booking_ref calendar ok svc,
        validate_service_area service_zips payload.customer_zip =
          Except.ok ok →
        dget st.services payload.service_id = some svc →
        (create_booking service_zips st payload now booking_ref calendar).1 =
          Except.error
            (BookingErr.importError "_generate_availability_for_day")) := by
  have himp : validate_availability =
      Except.error
        (BookingErr.importError "_generate_availability_for_day") := by rfl
  refine ⟨by decide, himp, ?_, ?_⟩
  · intro service_zips st payload now booking_ref calendar
    unfold create_booking
    cases harea : validate_service_area service_zips payload.customer_zip with
    | error e => exact ⟨rfl, ⟨_, rfl⟩⟩
    | ok v =>
        cases hsvc : get_service st payload.service_id with
        | error e => exact ⟨rfl, ⟨_, rfl⟩⟩
        | ok svc =>
            rw [himp]
            exact ⟨rfl, ⟨_, rfl⟩⟩
  · intro service_zips st payload now booking_ref calendar ok svc harea hsvc
    unfold create_booking
    rw [harea]
    have hget : get_service st payload.service_id = Except.ok svc := by
      unfold get_service
      rw [hsvc]
    rw [hget, himp]

/-- C3 witness: the always-fails theorem applied to a concrete store holding
the "Oil Change" service, with no service area configured, at the 09:00
payload. -/
theorem create_booking_always_fails_witness :
    (create_booking [] ⟨[], [], [("svc-1", c1Service)]⟩ c1Payload 0 "b1"
        (Except.ok "evt-1")).1 =
      Except.error
        (BookingErr.importError "_generate_availability_for_day") :=
  create_booking_always_fails.2.2.2 [] ⟨[], [], [("svc-1", c1Service)]⟩
    c1Payload 0 "b1" (Except.ok "evt-1") true c1Service (by rfl) (by rfl)

end MechBooking
